import Mathlib

/-!
Shallow embedding of the Coast FIRE calculator (`coast-fire.py`) and of the
sibling PEGY ratio utilities (`PEGY.py`, `ex.py`).  Python floats are modelled
as exact rationals, Python ints as integers, and fallible code (exceptions)
as `Except`/`Option` values.
-/

namespace Finance

/-- Input parameters for the Coast FIRE calculation (`CoastFIREInput`). -/
structure CoastFIREInput where
  current_age : ℤ
  retirement_age : ℤ
  current_investment : ℚ
  expected_annual_return : ℚ
  expected_monthly_expense_at_retirement : ℚ
  inflation_rate : ℚ

/-- Output record of the Coast FIRE calculation (`CoastFIREResult`). -/
structure CoastFIREResult where
  years_to_grow : ℤ
  annual_expense_at_retirement : ℚ
  fire_number_required : ℚ
  future_value_at_retirement : ℚ
  surplus_or_shortfall : ℚ
  has_achieved_coast_fire : Bool

/-- Embeds `validate_inputs`: the if-chain of checks, each raising
`ValueError` (modelled as `Except.error`) with the source's message. -/
def validate_inputs (inputs : CoastFIREInput) : Except String Unit :=
  if inputs.current_age < 0 then
    Except.error "current_age must be non-negative"
  else if inputs.retirement_age ≤ inputs.current_age then
    Except.error "retirement_age must be greater than current_age"
  else if inputs.current_investment < 0 then
    Except.error "current_investment must be non-negative"
  else if inputs.expected_annual_return < -1 then
    Except.error "expected_annual_return must be greater than -100%"
  else if inputs.expected_monthly_expense_at_retirement < 0 then
    Except.error "expected_monthly_expense_at_retirement must be non-negative"
  else if inputs.inflation_rate < 0 then
    Except.error "inflation_rate must be non-negative"
  else
    Except.ok ()

/-- Embeds `calculate_years_to_grow`. -/
def calculate_years_to_grow (current_age retirement_age : ℤ) : ℤ :=
  retirement_age - current_age

/-- Embeds `calculate_annual_expense_at_retirement`:
annual expense inflated over the horizon. -/
def calculate_annual_expense_at_retirement
    (monthly_expense inflation_rate : ℚ) (years_to_grow : ℤ) : ℚ :=
  (monthly_expense * 12) * (1 + inflation_rate) ^ years_to_grow

/-- Embeds `calculate_fire_number`: the 4 percent rule. -/
def calculate_fire_number (annual_expense_at_retirement : ℚ) : ℚ :=
  annual_expense_at_retirement / 0.04

/-- Embeds `calculate_future_value`: lump-sum compound interest with the
explicit zero-years branch. -/
def calculate_future_value (present_value annual_return : ℚ) (years : ℤ) : ℚ :=
  if years = 0 then present_value
  else present_value * (1 + annual_return) ^ years

/-- Embeds `calculate_coast_fire`: validation followed by the five
computation steps. -/
def calculate_coast_fire (inputs : CoastFIREInput) :
    Except String CoastFIREResult :=
  match validate_inputs inputs with
  | Except.error e => Except.error e
  | Except.ok _ =>
    let years_to_grow :=
      calculate_years_to_grow inputs.current_age inputs.retirement_age
    let annual_expense_at_retirement :=
      calculate_annual_expense_at_retirement
        inputs.expected_monthly_expense_at_retirement
        inputs.inflation_rate years_to_grow
    let fire_number_required := calculate_fire_number annual_expense_at_retirement
    let future_value_at_retirement :=
      calculate_future_value inputs.current_investment
        inputs.expected_annual_return years_to_grow
    let surplus_or_shortfall := future_value_at_retirement - fire_number_required
    let has_achieved_coast_fire :=
      decide (fire_number_required ≤ future_value_at_retirement)
    Except.ok
      { years_to_grow := years_to_grow
        annual_expense_at_retirement := annual_expense_at_retirement
        fire_number_required := fire_number_required
        future_value_at_retirement := future_value_at_retirement
        surplus_or_shortfall := surplus_or_shortfall
        has_achieved_coast_fire := has_achieved_coast_fire }

/-- Embeds `calculate_required_monthly_investment`.  The source guards the
zero monthly rate but divides by the annuity factor unguarded; `none` models
the `ZeroDivisionError` Python raises when that factor is zero. -/
def calculate_required_monthly_investment
    (fire_number_required annual_return : ℚ) (years_to_grow : ℤ) : Option ℚ :=
  if years_to_grow = 0 then some 0
  else
    let monthly_return := annual_return / 12
    let total_months := years_to_grow * 12
    if monthly_return = 0 then some (fire_number_required / (total_months : ℚ))
    else
      let fv_factor := ((1 + monthly_return) ^ total_months - 1) / monthly_return
      if fv_factor = 0 then none
      else some (fire_number_required / fv_factor)

/-- Embeds `calculate_average_return`: average of the first-year and the
zero-floored final-year rate of a linearly declining schedule. -/
def calculate_average_return (initial_return annual_decrease : ℚ) (years : ℤ) : ℚ :=
  if years = 0 then initial_return
  else
    let final_return := max (initial_return - ((years : ℚ) - 1) * annual_decrease) 0
    (initial_return + final_return) / 2

/-- Embeds the annuity-accumulation block that `calculate_coast_fire_age`
runs for each candidate age (lines computing `accumulated`): zero when no
years were invested, straight accumulation at a zero monthly rate, and the
ordinary-annuity factor otherwise. -/
def future_value_of_contributions
    (monthly_investment annual_return : ℚ) (years : ℤ) : ℚ :=
  if years = 0 then 0
  else
    let monthly_return := annual_return / 12
    let total_months := years * 12
    if monthly_return = 0 then monthly_investment * (total_months : ℚ)
    else
      let fv_factor := ((1 + monthly_return) ^ total_months - 1) / monthly_return
      monthly_investment * fv_factor

/-- Embeds the body of `calculate_coast_fire_age`'s loop: the value projected
at retirement when contributions stop at `test_age`. -/
def cfa_projected (current_age retirement_age : ℤ)
    (monthly_investment initial_return annual_return_decrease : ℚ)
    (test_age : ℤ) : ℚ :=
  let years_to_invest := test_age - current_age
  let years_to_grow_after := retirement_age - test_age
  let avg_return_phase1 :=
    calculate_average_return initial_return annual_return_decrease years_to_invest
  let accumulated :=
    future_value_of_contributions monthly_investment avg_return_phase1 years_to_invest
  let starting_return_phase2 :=
    max (initial_return - (years_to_invest : ℚ) * annual_return_decrease) 0
  let avg_return_phase2 :=
    calculate_average_return starting_return_phase2 annual_return_decrease
      years_to_grow_after
  calculate_future_value accumulated avg_return_phase2 years_to_grow_after

/-- Fuel-indexed linear scan mirroring the `for test_age in range(...)` loop:
return the first age satisfying `P`, or the fall-through value. -/
def coast_fire_search (P : ℤ → Prop) [DecidablePred P] :
    ℤ → ℕ → ℤ → ℤ
  | _, 0, fall_through => fall_through
  | test_age, fuel + 1, fall_through =>
    if P test_age then test_age
    else coast_fire_search P (test_age + 1) fuel fall_through

/-- Embeds `calculate_coast_fire_age`: scan candidate stop ages from
`current_age` to `retirement_age` inclusive, returning the first whose
projected value reaches `fire_number`, and `retirement_age` otherwise. -/
def calculate_coast_fire_age (current_age retirement_age : ℤ)
    (monthly_investment initial_return annual_return_decrease fire_number : ℚ) : ℤ :=
  coast_fire_search
    (fun test_age => fire_number ≤
      cfa_projected current_age retirement_age monthly_investment initial_return
        annual_return_decrease test_age)
    current_age (retirement_age + 1 - current_age).toNat retirement_age

/-- Models Python's `round` to an integer: round half to even. -/
def round_half_even (q : ℚ) : ℤ :=
  if q - ⌊q⌋ < 1 / 2 then ⌊q⌋
  else if 1 / 2 < q - ⌊q⌋ then ⌊q⌋ + 1
  else if ⌊q⌋ % 2 = 0 then ⌊q⌋ else ⌊q⌋ + 1

/-- Models Python's `round(x, 4)`: round half to even at four decimal places. -/
def python_round_4 (q : ℚ) : ℚ :=
  (round_half_even (q * 10000) : ℚ) / 10000

/-- Embeds `calculate_pegy` from `PEGY.py`: undefined marker when `pe ≤ 0`
or the denominator is nonpositive, the rounded ratio otherwise. -/
def pegy_calculate_pegy (pe profit_growth dividend_yield buffer : ℚ) : Option ℚ :=
  let denominator := profit_growth + dividend_yield + buffer
  if pe ≤ 0 ∨ denominator ≤ 0 then none
  else some (python_round_4 (pe / denominator))

/-- Embeds `calculate_pegy` from `ex.py`: `None` when an input is `None` or
`pe ≤ 0`; otherwise it divides without checking the denominator, so a zero
denominator raises `ZeroDivisionError` (modelled as `Except.error`). -/
def ex_calculate_pegy : Option ℚ → Option ℚ → Option ℚ → ℚ →
    Except String (Option ℚ)
  | some pe, some growth, some dividend, buffer =>
    if pe ≤ 0 then Except.ok none
    else if growth + dividend + buffer = 0 then Except.error "ZeroDivisionError"
    else Except.ok (some (python_round_4 (pe / (growth + dividend + buffer))))
  | _, _, _, _ => Except.ok none

/-- Reference definition of the effective rate, written from the spec's
words in section 4.1 (ReturnScheduleModel), for comparison with the
source's `calculate_average_return`. -/
def effective_rate_spec (initial_rate annual_decrease : ℚ) (years : ℤ) : ℚ :=
  if years = 0 then initial_rate
  else (initial_rate + max (initial_rate - ((years : ℚ) - 1) * annual_decrease) 0) / 2

/-- Input exhibiting the validation boundary: every field satisfies the
spec's invariants except `expected_annual_return`, which is exactly −1. -/
def boundary_input : CoastFIREInput :=
  { current_age := 35
    retirement_age := 60
    current_investment := 1000
    expected_annual_return := -1
    expected_monthly_expense_at_retirement := 100
    inflation_rate := 0 }

/-- Characterisation of the inputs `validate_inputs` accepts. -/
theorem validate_inputs_ok_iff (i : CoastFIREInput) :
    validate_inputs i = Except.ok () ↔
      0 ≤ i.current_age ∧ i.current_age < i.retirement_age ∧
      0 ≤ i.current_investment ∧ -1 ≤ i.expected_annual_return ∧
      0 ≤ i.expected_monthly_expense_at_retirement ∧ 0 ≤ i.inflation_rate := by
  unfold validate_inputs
  split_ifs with h1 h2 h3 h4 h5 h6 <;> simp_all [not_lt, not_le]

/-- With a zero annual decrease and a nonnegative initial rate the average
return degenerates to the initial rate, for any number of years. -/
theorem average_return_zero_decrease (x : ℚ) (hx : 0 ≤ x) (n : ℤ) :
    calculate_average_return x 0 n = x := by
  unfold calculate_average_return
  split_ifs with h
  · rfl
  · rw [mul_zero, sub_zero, max_eq_left hx]
    ring

/-- C1: the claim (and the spec's section 3 invariant, and the code's own
error message, which demands a return strictly greater than −100 percent)
says validation must reject `expected_annual_return ≤ −1`; the code's check
is `< −1`, so the boundary input with return exactly −1 — all other
invariants satisfied — is accepted and `evaluate` proceeds normally. -/
theorem C1_return_boundary_accepted_despite_claim :
    validate_inputs boundary_input = Except.ok () ∧
    boundary_input.expected_annual_return = -1 ∧
    0 ≤ boundary_input.current_age ∧
    boundary_input.current_age < boundary_input.retirement_age ∧
    0 ≤ boundary_input.current_investment ∧
    0 ≤ boundary_input.expected_monthly_expense_at_retirement ∧
    0 ≤ boundary_input.inflation_rate :=
  ⟨rfl, rfl, by decide, by decide, by norm_num [boundary_input],
    by norm_num [boundary_input], by norm_num [boundary_input]⟩

/-- C4: `calculate_average_return` agrees with the spec's reference
definition of `effective_rate`: unchanged initial rate at zero years, and
the average of the initial rate and the zero-floored final-year rate for a
positive number of years. -/
theorem C4_average_return_matches_reference (x d : ℚ) (n : ℤ) :
    calculate_average_return x d n = effective_rate_spec x d n ∧
    (n = 0 → calculate_average_return x d n = x) ∧
    (1 ≤ n → calculate_average_return x d n =
      (x + max (x - ((n : ℚ) - 1) * d) 0) / 2) := by
  refine ⟨rfl, ?_, ?_⟩
  · intro h
    simp [calculate_average_return, h]
  · intro h
    have hn : n ≠ 0 := by omega
    simp [calculate_average_return, hn]

/-- Witness for C4 at concrete inputs, discharging each hypothesis. -/
theorem C4_average_return_matches_reference_witness :
    calculate_average_return 0 (1 / 100) 0 = 0 ∧
    calculate_average_return (7 / 100) (1 / 200) 5 =
      (7 / 100 + max (7 / 100 - (((5 : ℤ) : ℚ) - 1) * (1 / 200)) 0) / 2 :=
  ⟨(C4_average_return_matches_reference 0 (1 / 100) 0).2.1 rfl,
    (C4_average_return_matches_reference (7 / 100) (1 / 200) 5).2.2 (by decide)⟩

/-- C5 counterexample: for the negative initial rate −1 the zero floor on
the final-year rate makes the average −1/2, not −1, so
`calculate_average_return x 0 n = x` fails for a negative `x`. -/
theorem C5_counterexample_negative_rate :
    ¬ calculate_average_return (-1) 0 1 = -1 := by
  norm_num [calculate_average_return]

/-- C5 (amended): with a nonnegative initial rate `x`, a zero annual
decrease degenerates to the constant rate `x`, for every `n ≥ 0`. -/
theorem C5_zero_decrease_constant_rate (x : ℚ) (hx : 0 ≤ x) (n : ℤ) (_hn : 0 ≤ n) :
    calculate_average_return x 0 n = x :=
  average_return_zero_decrease x hx n

/-- Witness for C5 at concrete inputs, discharging each hypothesis. -/
theorem C5_zero_decrease_constant_rate_witness :
    0 ≤ (3 / 2 : ℚ) ∧ 0 ≤ (7 : ℤ) ∧ calculate_average_return (3 / 2) 0 7 = 3 / 2 :=
  ⟨by norm_num, by decide, C5_zero_decrease_constant_rate (3 / 2) (by norm_num) 7 (by decide)⟩

/-- C10: for a nonnegative initial rate, decrease and horizon, the average
return stays between half the initial rate and the initial rate. -/
theorem C10_average_return_bounds (x d : ℚ) (n : ℤ)
    (hx : 0 ≤ x) (hd : 0 ≤ d) (hn : 0 ≤ n) :
    x / 2 ≤ calculate_average_return x d n ∧ calculate_average_return x d n ≤ x := by
  unfold calculate_average_return
  split_ifs with h
  · constructor <;> linarith
  · have h1 : (1 : ℚ) ≤ (n : ℚ) := by
      have : 1 ≤ n := by omega
      exact_mod_cast this
    have hfin0 : 0 ≤ max (x - ((n : ℚ) - 1) * d) 0 := le_max_right _ _
    have hfin1 : max (x - ((n : ℚ) - 1) * d) 0 ≤ x := by
      apply max_le _ hx
      have : 0 ≤ ((n : ℚ) - 1) * d := mul_nonneg (by linarith) hd
      linarith
    constructor <;> linarith

/-- Witness for C10 at concrete inputs, discharging each hypothesis. -/
theorem C10_average_return_bounds_witness :
    0 ≤ (1 / 10 : ℚ) ∧ 0 ≤ (1 / 100 : ℚ) ∧ 0 ≤ (3 : ℤ) ∧
    (1 / 10 : ℚ) / 2 ≤ calculate_average_return (1 / 10) (1 / 100) 3 ∧
    calculate_average_return (1 / 10) (1 / 100) 3 ≤ 1 / 10 :=
  ⟨by norm_num, by norm_num, by decide,
    C10_average_return_bounds (1 / 10) (1 / 100) 3 (by norm_num) (by norm_num) (by decide)⟩

/-- C3: on every input passing validation, `calculate_coast_fire` returns
normally and every field of the result agrees with the claimed closed
forms (horizon difference, inflated annual expense, 4 percent target,
compounded lump sum, surplus difference, sufficiency comparison). -/
theorem C3_calculate_coast_fire_fields (i : CoastFIREInput)
    (h : validate_inputs i = Except.ok ()) :
    ∃ r, calculate_coast_fire i = Except.ok r ∧
      r.years_to_grow = i.retirement_age - i.current_age ∧
      r.annual_expense_at_retirement =
        i.expected_monthly_expense_at_retirement * 12 *
          (1 + i.inflation_rate) ^ (i.retirement_age - i.current_age) ∧
      r.fire_number_required = r.annual_expense_at_retirement / 0.04 ∧
      r.future_value_at_retirement =
        i.current_investment *
          (1 + i.expected_annual_return) ^ (i.retirement_age - i.current_age) ∧
      r.surplus_or_shortfall =
        r.future_value_at_retirement - r.fire_number_required ∧
      (r.has_achieved_coast_fire = true ↔
        r.fire_number_required ≤ r.future_value_at_retirement) := by
  have hv := (validate_inputs_ok_iff i).mp h
  have hyears : i.retirement_age - i.current_age ≠ 0 := by omega
  unfold calculate_coast_fire
  rw [h]
  refine ⟨_, rfl, rfl, rfl, rfl, ?_, rfl, decide_eq_true_iff⟩
  show calculate_future_value _ _ _ = _
  unfold calculate_future_value calculate_years_to_grow
  rw [if_neg hyears]

/-- Concrete validated input used to exercise C3. -/
def c3_input : CoastFIREInput :=
  { current_age := 35
    retirement_age := 36
    current_investment := 1000
    expected_annual_return := 1
    expected_monthly_expense_at_retirement := 100
    inflation_rate := 0 }

/-- Witness for C3 at a concrete validated input. -/
theorem C3_calculate_coast_fire_fields_witness :
    ∃ r, calculate_coast_fire c3_input = Except.ok r ∧
      r.years_to_grow = c3_input.retirement_age - c3_input.current_age ∧
      r.annual_expense_at_retirement =
        c3_input.expected_monthly_expense_at_retirement * 12 *
          (1 + c3_input.inflation_rate) ^
            (c3_input.retirement_age - c3_input.current_age) ∧
      r.fire_number_required = r.annual_expense_at_retirement / 0.04 ∧
      r.future_value_at_retirement =
        c3_input.current_investment *
          (1 + c3_input.expected_annual_return) ^
            (c3_input.retirement_age - c3_input.current_age) ∧
      r.surplus_or_shortfall =
        r.future_value_at_retirement - r.fire_number_required ∧
      (r.has_achieved_coast_fire = true ↔
        r.fire_number_required ≤ r.future_value_at_retirement) :=
  C3_calculate_coast_fire_fields c3_input (by rfl)

/-- If no age within the fuel range satisfies the predicate, the scan falls
through to the given value. -/
theorem coast_fire_search_none (P : ℤ → Prop) [DecidablePred P]
    (fuel : ℕ) (lo fall_through : ℤ)
    (h : ∀ k : ℕ, k < fuel → ¬ P (lo + k)) :
    coast_fire_search P lo fuel fall_through = fall_through := by
  induction fuel generalizing lo with
  | zero => rfl
  | succ n ih =>
    have h0 : ¬ P lo := by
      have := h 0 (Nat.succ_pos n)
      simpa using this
    show (if P lo then lo else coast_fire_search P (lo + 1) n fall_through) =
      fall_through
    rw [if_neg h0]
    apply ih
    intro k hk hPk
    apply h (k + 1) (by omega)
    have e : lo + ((k + 1 : ℕ) : ℤ) = lo + 1 + (k : ℤ) := by push_cast; ring
    rw [e]
    exact hPk

/-- If the offset `k` is the first within the fuel range whose age satisfies
the predicate, the scan stops exactly there. -/
theorem coast_fire_search_first (P : ℤ → Prop) [DecidablePred P]
    (fuel : ℕ) (lo fall_through : ℤ) (k : ℕ) (hk : k < fuel)
    (hp : P (lo + k)) (hmin : ∀ j : ℕ, j < k → ¬ P (lo + j)) :
    coast_fire_search P lo fuel fall_through = lo + k := by
  induction fuel generalizing lo k with
  | zero => omega
  | succ n ih =>
    show (if P lo then lo else coast_fire_search P (lo + 1) n fall_through) =
      lo + k
    by_cases h0 : P lo
    · have hk0 : k = 0 := by
        by_contra hne
        exact hmin 0 (by omega) (by simpa using h0)
      subst hk0
      rw [if_pos h0]
      simp
    · have hkpos : k ≠ 0 := by
        intro he
        subst he
        exact h0 (by simpa using hp)
      obtain ⟨k', rfl⟩ : ∃ k', k = k' + 1 := ⟨k - 1, by omega⟩
      have hp' : P (lo + 1 + (k' : ℤ)) := by
        have e : lo + 1 + (k' : ℤ) = lo + ((k' + 1 : ℕ) : ℤ) := by push_cast; ring
        rw [e]
        exact hp
      have hmin' : ∀ j : ℕ, j < k' → ¬ P (lo + 1 + j) := by
        intro j hj hPj
        apply hmin (j + 1) (by omega)
        have e : lo + ((j + 1 : ℕ) : ℤ) = lo + 1 + (j : ℤ) := by push_cast; ring
        rw [e]
        exact hPj
      rw [if_neg h0, ih (lo + 1) k' (by omega) hp' hmin']
      push_cast
      ring

/-- Stopping at the current age itself leaves nothing accumulated, so the
projected value of that degenerate candidate is zero. -/
theorem cfa_projected_self (ca ra : ℤ) (m x d : ℚ) :
    cfa_projected ca ra m x d ca = 0 := by
  unfold cfa_projected future_value_of_contributions calculate_future_value
  simp

/-- Full characterisation of `calculate_coast_fire_age` when the age range
is nonempty: the result lies in the range, is below every satisfying
candidate and itself satisfies the target when any candidate does, and
falls back to `retirement_age` when none does. -/
theorem coast_fire_age_characterisation (ca ra : ℤ) (m x d fn : ℚ)
    (h : ca ≤ ra) :
    (ca ≤ calculate_coast_fire_age ca ra m x d fn ∧
      calculate_coast_fire_age ca ra m x d fn ≤ ra) ∧
    (∀ a : ℤ, ca ≤ a → a ≤ ra → fn ≤ cfa_projected ca ra m x d a →
      fn ≤ cfa_projected ca ra m x d (calculate_coast_fire_age ca ra m x d fn) ∧
      calculate_coast_fire_age ca ra m x d fn ≤ a) ∧
    ((∀ a : ℤ, ca ≤ a → a ≤ ra → ¬ fn ≤ cfa_projected ca ra m x d a) →
      calculate_coast_fire_age ca ra m x d fn = ra) := by
  by_cases hex : ∃ k : ℕ,
      fn ≤ cfa_projected ca ra m x d (ca + k) ∧ k < (ra + 1 - ca).toNat
  · have hQ := hex
    have hk0P := (Nat.find_spec hQ).1
    have hk0n := (Nat.find_spec hQ).2
    have hk0min : ∀ j : ℕ, j < Nat.find hQ →
        ¬ fn ≤ cfa_projected ca ra m x d (ca + j) := by
      intro j hj hPj
      exact Nat.find_min hQ hj ⟨hPj, lt_trans hj hk0n⟩
    have hRval : calculate_coast_fire_age ca ra m x d fn = ca + Nat.find hQ := by
      unfold calculate_coast_fire_age
      exact coast_fire_search_first _ _ _ _ _ hk0n hk0P hk0min
    rw [hRval]
    refine ⟨⟨by omega, by omega⟩, ?_, ?_⟩
    · intro a ha har haP
      refine ⟨hk0P, ?_⟩
      have hkan : (a - ca).toNat < (ra + 1 - ca).toNat := by omega
      have hPa : fn ≤ cfa_projected ca ra m x d (ca + ((a - ca).toNat : ℤ)) := by
        have e : ca + ((a - ca).toNat : ℤ) = a := by omega
        rw [e]
        exact haP
      have := Nat.find_min' hQ ⟨hPa, hkan⟩
      omega
    · intro hnone
      exact absurd hk0P (hnone _ (by omega) (by omega))
  · have hnoneK : ∀ k : ℕ, k < (ra + 1 - ca).toNat →
        ¬ fn ≤ cfa_projected ca ra m x d (ca + k) := by
      intro k hk hPk
      exact hex ⟨k, hPk, hk⟩
    have hRval : calculate_coast_fire_age ca ra m x d fn = ra := by
      unfold calculate_coast_fire_age
      exact coast_fire_search_none _ _ _ _ hnoneK
    rw [hRval]
    refine ⟨⟨h, le_refl ra⟩, ?_, fun _ => rfl⟩
    intro a ha har haP
    exfalso
    apply hnoneK (a - ca).toNat (by omega)
    have e : ca + ((a - ca).toNat : ℤ) = a := by omega
    rw [e]
    exact haP

/-- C2: whenever the age range is nonempty, `calculate_coast_fire_age`
returns the smallest candidate age in `[current_age, retirement_age]` whose
projected value at retirement reaches the fire number, and falls back to
`retirement_age` when no candidate satisfies it. -/
theorem C2_coast_fire_age_first_satisfying (ca ra : ℤ) (m x d fn : ℚ)
    (h : ca ≤ ra) :
    (ca ≤ calculate_coast_fire_age ca ra m x d fn ∧
      calculate_coast_fire_age ca ra m x d fn ≤ ra) ∧
    (∀ a : ℤ, ca ≤ a → a ≤ ra → fn ≤ cfa_projected ca ra m x d a →
      fn ≤ cfa_projected ca ra m x d (calculate_coast_fire_age ca ra m x d fn) ∧
      calculate_coast_fire_age ca ra m x d fn ≤ a) ∧
    ((∀ a : ℤ, ca ≤ a → a ≤ ra → ¬ fn ≤ cfa_projected ca ra m x d a) →
      calculate_coast_fire_age ca ra m x d fn = ra) :=
  coast_fire_age_characterisation ca ra m x d fn h

/-- Witness for C2 at a concrete nonempty age range. -/
theorem C2_coast_fire_age_first_satisfying_witness :
    ((30 : ℤ) ≤ calculate_coast_fire_age 30 31 0 0 0 0 ∧
      calculate_coast_fire_age 30 31 0 0 0 0 ≤ 31) ∧
    (∀ a : ℤ, 30 ≤ a → a ≤ 31 → (0 : ℚ) ≤ cfa_projected 30 31 0 0 0 a →
      (0 : ℚ) ≤ cfa_projected 30 31 0 0 0 (calculate_coast_fire_age 30 31 0 0 0 0) ∧
      calculate_coast_fire_age 30 31 0 0 0 0 ≤ a) ∧
    ((∀ a : ℤ, 30 ≤ a → a ≤ 31 → ¬ (0 : ℚ) ≤ cfa_projected 30 31 0 0 0 a) →
      calculate_coast_fire_age 30 31 0 0 0 0 = 31) :=
  C2_coast_fire_age_first_satisfying 30 31 0 0 0 0 (by decide)

/-- C9 counterexample: with `current_age = retirement_age = 30` (allowed by
the claim's hypothesis `current_age ≤ retirement_age`) and the positive
target 1, the solver returns the fall-through value 30, which is not
strictly greater than `current_age`. -/
theorem C9_counterexample_equal_ages :
    (30 : ℤ) ≤ 30 ∧ (0 : ℚ) < 1 ∧
    ¬ 30 < calculate_coast_fire_age 30 30 0 0 0 1 := by
  refine ⟨le_refl _, by norm_num, ?_⟩
  have h30 : calculate_coast_fire_age 30 30 0 0 0 1 = 30 := by
    unfold calculate_coast_fire_age
    have e : ((30 : ℤ) + 1 - 30).toNat = 1 := by decide
    rw [e]
    apply coast_fire_search_none
    intro k hk
    have hk0 : k = 0 := by omega
    subst hk0
    have e2 : (30 : ℤ) + ((0 : ℕ) : ℤ) = 30 := by decide
    rw [e2, cfa_projected_self]
    norm_num
  omega

/-- C9 (amended): for a nonempty age range, a nonpositive fire number is met
by the degenerate first candidate (zero years to invest, zero accumulated),
so the solver returns `current_age`; and when the fire number is positive
and `current_age < retirement_age`, the returned age is strictly greater
than `current_age`. -/
theorem C9_degenerate_first_candidate (ca ra : ℤ) (m x d fn : ℚ)
    (h : ca ≤ ra) :
    (fn ≤ 0 → calculate_coast_fire_age ca ra m x d fn = ca) ∧
    (0 < fn → ca < ra → ca < calculate_coast_fire_age ca ra m x d fn) := by
  obtain ⟨⟨hca, hra⟩, hmin, hfall⟩ :=
    coast_fire_age_characterisation ca ra m x d fn h
  constructor
  · intro hfn
    have hPca : fn ≤ cfa_projected ca ra m x d ca := by
      rw [cfa_projected_self]
      exact hfn
    have := (hmin ca (le_refl ca) h hPca).2
    omega
  · intro hfn hlt
    have hPca : ¬ fn ≤ cfa_projected ca ra m x d ca := by
      rw [cfa_projected_self]
      linarith
    by_cases hex : ∃ a : ℤ, ca ≤ a ∧ a ≤ ra ∧ fn ≤ cfa_projected ca ra m x d a
    · obtain ⟨a, ha1, ha2, ha3⟩ := hex
      obtain ⟨hPR, _⟩ := hmin a ha1 ha2 ha3
      rcases eq_or_lt_of_le hca with he | hl
      · rw [← he] at hPR
        exact absurd hPR hPca
      · exact hl
    · have hRval : calculate_coast_fire_age ca ra m x d fn = ra :=
        hfall fun a h1 h2 h3 => hex ⟨a, h1, h2, h3⟩
      omega

/-- Witness for C9 (amended) at concrete inputs, discharging each
hypothesis; the two target conjuncts are exercised with fire numbers 0
and 1 respectively. -/
theorem C9_degenerate_first_candidate_witness :
    calculate_coast_fire_age 30 31 0 0 0 0 = 30 ∧
    30 < calculate_coast_fire_age 30 31 0 0 0 1 :=
  ⟨(C9_degenerate_first_candidate 30 31 0 0 0 0 (by decide)).1 (le_refl 0),
    (C9_degenerate_first_candidate 30 31 0 0 0 1 (by decide)).2 (by norm_num) (by decide)⟩

/-- C6 counterexample: at the annual rate −24 the monthly rate is −2, the
annuity factor ((1 − 2)^12 − 1)/(−2) is zero, and the solver divides by it:
Python raises ZeroDivisionError (modelled as `none`), so the round-trip
does not return the original monthly amount 1. -/
theorem C6_counterexample_rate_minus_24 :
    calculate_required_monthly_investment
      (future_value_of_contributions 1 (-24) 1) (-24) 1 ≠ some 1 := by
  have h : calculate_required_monthly_investment
      (future_value_of_contributions 1 (-24) 1) (-24) 1 = none := by
    unfold calculate_required_monthly_investment
    norm_num
  rw [h]
  simp

/-- C6 (amended): for every monthly amount `m`, every annual rate `r`
outside {0, −24} and every positive horizon, feeding the annuity future
value of `m` back into the contribution solver returns exactly `m` —
in exact arithmetic the composition is the identity. -/
theorem C6_required_investment_roundtrip (m r : ℚ) (n : ℤ)
    (hr : r ≠ 0) (hr24 : r ≠ -24) (hn : 0 < n) :
    calculate_required_monthly_investment
      (future_value_of_contributions m r n) r n = some m := by
  have hn0 : n ≠ 0 := by omega
  have hmr : r / 12 ≠ 0 := div_ne_zero hr (by norm_num)
  have hq1 : (1 : ℚ) + r / 12 ≠ 1 := by
    intro h
    apply hmr
    linarith
  have hqm1 : (1 : ℚ) + r / 12 ≠ -1 := by
    intro h
    apply hr24
    have h2 : r / 12 = -2 := by linarith
    have h3 : r = 12 * (r / 12) := by ring
    rw [h2] at h3
    linarith
  have hpow : ((1 : ℚ) + r / 12) ^ (n * 12) ≠ 1 := by
    have hmul : n * 12 = ((n.toNat * 12 : ℕ) : ℤ) := by
      push_cast
      omega
    rw [hmul, zpow_natCast]
    intro h1
    rcases pow_eq_one_iff_cases.mp h1 with h | h | ⟨h, _⟩
    · omega
    · exact hq1 h
    · exact hqm1 h
  have hfv : ((1 : ℚ) + r / 12) ^ (n * 12) - 1 ≠ 0 := by
    intro h
    exact hpow (by linarith)
  have hfactor : (((1 : ℚ) + r / 12) ^ (n * 12) - 1) / (r / 12) ≠ 0 :=
    div_ne_zero hfv hmr
  simp only [future_value_of_contributions, calculate_required_monthly_investment]
  simp only [if_neg hn0, if_neg hmr, if_neg hfactor]
  rw [mul_div_cancel_right₀ m hfactor]

/-- Witness for C6 (amended) at concrete inputs, discharging each
hypothesis. -/
theorem C6_required_investment_roundtrip_witness :
    (1 : ℚ) ≠ 0 ∧ (1 : ℚ) ≠ -24 ∧ (0 : ℤ) < 1 ∧
    calculate_required_monthly_investment
      (future_value_of_contributions 2 1 1) 1 1 = some 2 :=
  ⟨by norm_num, by norm_num, by decide,
    C6_required_investment_roundtrip 2 1 1 (by norm_num) (by norm_num) (by decide)⟩

/-- C7 counterexample: at pe = 10, growth = −6, dividend = 0 the denominator
−5.9 is nonpositive, so the claim demands the undefined marker from both
implementations, but `ex.py`'s `calculate_pegy` only checks `pe ≤ 0` and
returns the (negative) rounded ratio instead of the marker. -/
theorem C7_counterexample_negative_denominator :
    ¬ (10 : ℚ) ≤ 0 ∧ (-6 : ℚ) + 0 + 0.1 ≤ 0 ∧
    ex_calculate_pegy (some 10) (some (-6)) (some 0) 0.1 =
      Except.ok (some (python_round_4 (10 / (-6 + 0 + 0.1)))) ∧
    ex_calculate_pegy (some 10) (some (-6)) (some 0) 0.1 ≠ Except.ok none := by
  refine ⟨by norm_num, by norm_num, ?_, ?_⟩
  · simp only [ex_calculate_pegy]
    rw [if_neg (by norm_num : ¬ (10 : ℚ) ≤ 0),
      if_neg (by norm_num : ¬ (-6 : ℚ) + 0 + 0.1 = 0)]
  · simp only [ex_calculate_pegy]
    rw [if_neg (by norm_num : ¬ (10 : ℚ) ≤ 0),
      if_neg (by norm_num : ¬ (-6 : ℚ) + 0 + 0.1 = 0)]
    simp

/-- C7 (amended): with the default buffer 0.1, `PEGY.py`'s implementation
returns the undefined marker exactly when `pe ≤ 0` or the denominator is
nonpositive, and the rounded ratio otherwise; `ex.py`'s sibling returns the
marker exactly when an input is `None` or `pe ≤ 0`, raises
`ZeroDivisionError` when `pe > 0` and the denominator is zero, and
otherwise returns the rounded ratio whenever the denominator is nonzero —
even for a negative denominator. -/
theorem C7_pegy_undefined_marker (pe g d : ℚ) :
    (pegy_calculate_pegy pe g d 0.1 = none ↔ pe ≤ 0 ∨ g + d + 0.1 ≤ 0) ∧
    (¬ pe ≤ 0 → ¬ g + d + 0.1 ≤ 0 →
      pegy_calculate_pegy pe g d 0.1 =
        some (python_round_4 (pe / (g + d + 0.1)))) ∧
    (∀ x y z : Option ℚ, x = none ∨ y = none ∨ z = none →
      ex_calculate_pegy x y z 0.1 = Except.ok none) ∧
    (ex_calculate_pegy (some pe) (some g) (some d) 0.1 = Except.ok none ↔
      pe ≤ 0) ∧
    (¬ pe ≤ 0 → g + d + 0.1 = 0 →
      ex_calculate_pegy (some pe) (some g) (some d) 0.1 =
        Except.error "ZeroDivisionError") ∧
    (¬ pe ≤ 0 → ¬ g + d + 0.1 = 0 →
      ex_calculate_pegy (some pe) (some g) (some d) 0.1 =
        Except.ok (some (python_round_4 (pe / (g + d + 0.1))))) := by
  refine ⟨?_, ?_, ?_, ?_, ?_, ?_⟩
  · simp only [pegy_calculate_pegy]
    split_ifs with h
    · simp [h]
    · simp [h]
  · intro h1 h2
    simp only [pegy_calculate_pegy]
    rw [if_neg (by tauto : ¬ (pe ≤ 0 ∨ g + d + 0.1 ≤ 0))]
  · intro x y z hxyz
    rcases hxyz with hx | hy | hz
    · subst hx
      cases y <;> cases z <;> rfl
    · subst hy
      cases x <;> cases z <;> rfl
    · subst hz
      cases x <;> cases y <;> rfl
  · simp only [ex_calculate_pegy]
    split_ifs with h1 h2
    · simp [h1]
    · simp [h1]
    · simp [h1]
  · intro h1 h2
    simp only [ex_calculate_pegy]
    rw [if_neg h1, if_pos h2]
  · intro h1 h2
    simp only [ex_calculate_pegy]
    rw [if_neg h1, if_neg h2]

/-- Witness for C7 (amended): exercises, at concrete inputs that discharge
every hypothesis, the PEGY.py ratio clause, the None-input clause, the
ZeroDivisionError clause, and the ex.py ratio clause at a negative
denominator. -/
theorem C7_pegy_undefined_marker_witness :
    pegy_calculate_pegy 10 5 1 0.1 = some (python_round_4 (10 / (5 + 1 + 0.1))) ∧
    ex_calculate_pegy none (some 5) (some 1) 0.1 = Except.ok none ∧
    ex_calculate_pegy (some 10) (some (-1 / 10)) (some 0) 0.1 =
      Except.error "ZeroDivisionError" ∧
    ex_calculate_pegy (some 10) (some (-6)) (some 0) 0.1 =
      Except.ok (some (python_round_4 (10 / (-6 + 0 + 0.1)))) :=
  ⟨(C7_pegy_undefined_marker 10 5 1).2.1 (by norm_num) (by norm_num),
    (C7_pegy_undefined_marker 0 5 1).2.2.1 none (some 5) (some 1) (Or.inl rfl),
    (C7_pegy_undefined_marker 10 (-1 / 10) 0).2.2.2.2.1 (by norm_num) (by norm_num),
    (C7_pegy_undefined_marker 10 (-6) 0).2.2.2.2.2 (by norm_num) (by norm_num)⟩

/-- With a zero annual rate the annuity block degenerates to straight
accumulation of the monthly contributions. -/
theorem future_value_of_contributions_zero_rate (m : ℚ) (y : ℤ) :
    future_value_of_contributions m 0 y = m * ((y * 12 : ℤ) : ℚ) := by
  simp only [future_value_of_contributions]
  split_ifs with h1 h2
  · rw [h1]
    simp
  · rfl
  · exfalso
    apply h2
    norm_num

/-- With a positive annual rate the annuity block equals the closed
ordinary-annuity form, also at zero years where both sides vanish. -/
theorem future_value_of_contributions_pos_rate (m x : ℚ) (hx : 0 < x) (y : ℤ) :
    future_value_of_contributions m x y =
      m * (((1 + x / 12) ^ (y * 12) - 1) / (x / 12)) := by
  simp only [future_value_of_contributions]
  split_ifs with h1 h2
  · rw [h1]
    simp
  · exfalso
    rw [div_eq_zero_iff] at h2
    rcases h2 with h | h
    · linarith
    · norm_num at h
  · rfl

/-- Accumulating for one more year at a fixed nonnegative rate dominates
one year of lump-sum growth of the previous accumulation: the core step of
the d = 0 monotonicity argument. -/
theorem future_value_of_contributions_step (m x : ℚ)
    (hm : 0 ≤ m) (hx : 0 ≤ x) (y : ℤ) (hy : 0 ≤ y) :
    future_value_of_contributions m x y * (1 + x) ≤
      future_value_of_contributions m x (y + 1) := by
  rcases eq_or_lt_of_le hx with he | hpos
  · rw [← he, future_value_of_contributions_zero_rate,
      future_value_of_contributions_zero_rate]
    push_cast
    nlinarith
  · rw [future_value_of_contributions_pos_rate m x hpos,
      future_value_of_contributions_pos_rate m x hpos]
    have hx12 : (0 : ℚ) < x / 12 := by linarith
    have hq : (0 : ℚ) < 1 + x / 12 := by linarith
    set q : ℚ := 1 + x / 12 with hqdef
    have hyn : y * 12 = ((y.toNat * 12 : ℕ) : ℤ) := by
      push_cast
      omega
    have hyn1 : (y + 1) * 12 = ((y.toNat * 12 + 12 : ℕ) : ℤ) := by
      push_cast
      omega
    rw [hyn, hyn1, zpow_natCast, zpow_natCast]
    have hbern : 1 + x ≤ q ^ (12 : ℕ) := by
      have h12 : (-2 : ℚ) ≤ x / 12 := by linarith
      have := one_add_mul_le_pow h12 12
      have e : (12 : ℕ) * (x / 12) = x := by
        push_cast
        ring
      rw [e] at this
      exact this
    have hq0 : (0 : ℚ) ≤ q ^ (y.toNat * 12) := pow_nonneg (le_of_lt hq) _
    have hkey : (q ^ (y.toNat * 12) - 1) * (1 + x) ≤ q ^ (y.toNat * 12 + 12) - 1 := by
      rw [pow_add]
      nlinarith [mul_le_mul_of_nonneg_left hbern hq0]
    calc m * ((q ^ (y.toNat * 12) - 1) / (x / 12)) * (1 + x)
        = m * ((q ^ (y.toNat * 12) - 1) * (1 + x) / (x / 12)) := by ring
      _ ≤ m * ((q ^ (y.toNat * 12 + 12) - 1) / (x / 12)) := by
          apply mul_le_mul_of_nonneg_left _ hm
          exact (div_le_div_iff_of_pos_right hx12).mpr hkey

/-- Closed form of the projected value when the annual decrease is zero and
the initial rate nonnegative: both phase rates collapse to the initial
rate. -/
theorem cfa_projected_zero_decrease (ca ra : ℤ) (m x : ℚ) (hx : 0 ≤ x) (a : ℤ) :
    cfa_projected ca ra m x 0 a =
      future_value_of_contributions m x (a - ca) * (1 + x) ^ (ra - a) := by
  simp only [cfa_projected]
  rw [average_return_zero_decrease x hx, mul_zero, sub_zero, max_eq_left hx,
    average_return_zero_decrease x hx]
  simp only [calculate_future_value]
  split_ifs with h
  · rw [h, zpow_zero, mul_one]
  · rfl

/-- One step of the d = 0 monotonicity: postponing the stop age by one year
never decreases the projected value. -/
theorem cfa_projected_zero_decrease_step (ca ra : ℤ) (m x : ℚ)
    (hm : 0 ≤ m) (hx : 0 ≤ x) (a : ℤ) (hca : ca ≤ a) (_hra : a < ra) :
    cfa_projected ca ra m x 0 a ≤ cfa_projected ca ra m x 0 (a + 1) := by
  rw [cfa_projected_zero_decrease ca ra m x hx a,
    cfa_projected_zero_decrease ca ra m x hx (a + 1)]
  have hne : (1 : ℚ) + x ≠ 0 := by linarith
  have e1 : ra - a = (ra - (a + 1)) + 1 := by ring
  have e2 : a + 1 - ca = (a - ca) + 1 := by ring
  rw [e1, e2, zpow_add₀ hne, zpow_one]
  calc future_value_of_contributions m x (a - ca) *
        ((1 + x) ^ (ra - (a + 1)) * (1 + x))
      = future_value_of_contributions m x (a - ca) * (1 + x) *
          (1 + x) ^ (ra - (a + 1)) := by ring
    _ ≤ future_value_of_contributions m x ((a - ca) + 1) *
          (1 + x) ^ (ra - (a + 1)) := by
        apply mul_le_mul_of_nonneg_right
          (future_value_of_contributions_step m x hm hx (a - ca) (by omega))
        exact zpow_nonneg (by linarith) _

/-- C8 counterexample: with the nonnegative parameters m = 1, initial
return 3/2, annual decrease 3/4 and ages 0..5, the projected value at stop
age 2 is strictly below the one at stop age 1, and with fire number 85 the
earlier age satisfies the target while the later one does not — the first
satisfying age is not a threshold. -/
theorem C8_counterexample_nonmonotone :
    (0 : ℚ) ≤ 1 ∧ (0 : ℚ) ≤ 3 / 2 ∧ (0 : ℚ) ≤ 3 / 4 ∧
    (0 : ℤ) ≤ 1 ∧ (1 : ℤ) ≤ 2 ∧ (2 : ℤ) ≤ 5 ∧
    cfa_projected 0 5 1 (3 / 2) (3 / 4) 2 < cfa_projected 0 5 1 (3 / 2) (3 / 4) 1 ∧
    (85 : ℚ) ≤ cfa_projected 0 5 1 (3 / 2) (3 / 4) 1 ∧
    ¬ (85 : ℚ) ≤ cfa_projected 0 5 1 (3 / 2) (3 / 4) 2 := by
  have h1 : cfa_projected 0 5 1 (3 / 2) (3 / 4) 1 =
      213710059745 / 8589934592 * (14641 / 4096) := by
    norm_num [cfa_projected, calculate_average_return,
      future_value_of_contributions, calculate_future_value, max_def]
  have h2 : cfa_projected 0 5 1 (3 / 2) (3 / 4) 2 =
      (35 / 32 : ℚ) ^ (24 : ℕ) * (32 / 3) - 32 / 3 := by
    norm_num [cfa_projected, calculate_average_return,
      future_value_of_contributions, calculate_future_value, max_def]
  rw [h1, h2]
  norm_num

/-- C8 (amended): the projected-at-retirement value is monotone
non-decreasing in the candidate stop age — and hence the first satisfying
age is a threshold — for nonnegative contribution and initial rate when the
annual return decrease is zero; the counterexample shows a positive
decrease breaks monotonicity. -/
theorem C8_projected_monotone_zero_decrease (ca ra : ℤ) (m x fn : ℚ)
    (hm : 0 ≤ m) (hx : 0 ≤ x) (a b : ℤ)
    (hca : ca ≤ a) (hab : a ≤ b) (hra : b ≤ ra) :
    cfa_projected ca ra m x 0 a ≤ cfa_projected ca ra m x 0 b ∧
    (fn ≤ cfa_projected ca ra m x 0 a → fn ≤ cfa_projected ca ra m x 0 b) := by
  have mono : ∀ c : ℤ, a ≤ c → c ≤ ra →
      cfa_projected ca ra m x 0 a ≤ cfa_projected ca ra m x 0 c := by
    have step := Int.le_induction
      (P := fun c => c ≤ ra →
        cfa_projected ca ra m x 0 a ≤ cfa_projected ca ra m x 0 c)
      (fun _ => le_refl _)
      (fun n hn ih hn1 =>
        le_trans (ih (by omega))
          (cfa_projected_zero_decrease_step ca ra m x hm hx n (by omega) (by omega)))
    exact fun c hc => step c hc
  exact ⟨mono b hab hra, fun hfn => le_trans hfn (mono b hab hra)⟩

/-- Witness for C8 (amended) at concrete inputs, discharging each
hypothesis. -/
theorem C8_projected_monotone_zero_decrease_witness :
    cfa_projected 0 2 1 (1 / 10) 0 0 ≤ cfa_projected 0 2 1 (1 / 10) 0 1 ∧
    ((0 : ℚ) ≤ cfa_projected 0 2 1 (1 / 10) 0 0 →
      (0 : ℚ) ≤ cfa_projected 0 2 1 (1 / 10) 0 1) :=
  C8_projected_monotone_zero_decrease 0 2 1 (1 / 10) 0 (by norm_num)
    (by norm_num) 0 1 (by decide) (by decide) (by decide)

end Finance
